import Mathlib

/-!
Verification of the Qlik2Review batch-orchestration core.

Shallow embedding of the retry utility (`classifyError`, `isRetryable`,
`getRetryDelay`, `parseRetryAfter`, `withRetry` in `lib/retry`), the usage
tracker (`lib/token-tracker.js`) and the concurrent batch loop of
`analyzeSheet` (`lib/analyzer.js`).

Modelling conventions:
* JS numbers are modelled as `ℚ` where fractional values occur (delays,
  prices, costs) and as `ℤ`/`ℕ` for counters and indices.
* `Math.random()` samples and completion-order nondeterminism are passed in
  as explicit parameters.
* Async control flow is sequentialised; an awaited rejected promise is an
  `Except.error`.
-/

namespace Qlik2Review

/-! ## String `includes` (JS `String.prototype.includes`) -/

/-- Does `pat` occur at the very start of `s`? (char-list version). -/
def matchesAt : List Char → List Char → Bool
  | [], _ => true
  | _ :: _, [] => false
  | p :: ps, c :: cs => p == c && matchesAt ps cs

/-- Does `pat` occur anywhere inside `s`? (char-list version). -/
def hasSub (pat : List Char) : List Char → Bool
  | [] => matchesAt pat []
  | c :: t => matchesAt pat (c :: t) || hasSub pat t

/-- JS `s.includes(pat)`. -/
def strIncludes (s pat : String) : Bool :=
  hasSub pat.data s.data

/-- JS `s.toLowerCase()`, character by character. -/
def strToLower (s : String) : String :=
  String.mk (s.data.map Char.toLower)

/-! ## Error model and classifier (`lib/retry`, `classifyError`) -/

/-- The value carried by a `retry-after` header, after the parse attempts of
`parseRetryAfter` are resolved: an integer number of seconds (`parseInt`
succeeded), an HTTP date (parsed to an absolute millisecond timestamp), or a
string neither parse accepts. -/
inductive RetryAfterValue
  | seconds (n : ℤ)
  | httpDate (t : ℤ)
  | invalid
deriving DecidableEq

/-- A fetch `Response`-like object, as far as the retry logic inspects it:
`response.status` and `response.headers.get('retry-after')`. -/
structure Resp where
  status : ℕ
  retryAfter : Option RetryAfterValue
deriving DecidableEq

/-- A JS `Error` as the retry logic sees it: `error.message` plus the
optional `error.response` attached by `fetchWithRetry`. -/
structure Err where
  message : String
  response : Option Resp
deriving DecidableEq

/-- The `ErrorTypes` string constants of `lib/retry`. -/
inductive ErrorType
  | auth
  | rateLimit
  | network
  | server
  | validation
  | timeout
  | unknown
deriving DecidableEq

/-- The message-substring part of `classifyError` (its second half, reached
when no response-status rule fires). -/
def classifyByMessage (message : String) : ErrorType :=
  let m := strToLower message
  if strIncludes m "timeout" || strIncludes m "timed out" then .timeout
  else if strIncludes m "network" || strIncludes m "fetch" || strIncludes m "connection" then .network
  else if strIncludes m "api key" || strIncludes m "unauthorized" || strIncludes m "authentication" then .auth
  else if strIncludes m "rate" || strIncludes m "limit" || strIncludes m "quota" then .rateLimit
  else .unknown

/-- `classifyError(error, response)` from `lib/retry`. -/
def classifyError (error : Err) (response : Option Resp) : ErrorType :=
  match response with
  | some r =>
    if r.status = 401 || r.status = 403 then .auth
    else if r.status = 429 then .rateLimit
    else if r.status = 400 then .validation
    else if 500 ≤ r.status && r.status < 600 then .server
    else classifyByMessage error.message
  | none => classifyByMessage error.message

/-- `isRetryable(errorType)` from `lib/retry`: membership in the list of
retryable types. -/
def isRetryable (errorType : ErrorType) : Bool :=
  [ErrorType.rateLimit, ErrorType.network, ErrorType.server, ErrorType.timeout].contains errorType

/-! ## Backoff delay (`getRetryDelay`) and retry-after parsing -/

/-- `getRetryDelay(attempt, baseDelay, maxDelay)` from `lib/retry`, with the
`Math.random()` sample `u` made explicit. -/
def getRetryDelay (attempt : ℕ) (baseDelay maxDelay : ℚ) (u : ℚ) : ℚ :=
  let exponentialDelay := baseDelay * 2 ^ attempt
  let jitter := exponentialDelay * u * (3 / 10)
  let totalDelay := exponentialDelay + jitter
  min totalDelay maxDelay

/-- `parseRetryAfter(response)` from `lib/retry`; `now` is `Date.now()` in
milliseconds. Returns a delay in milliseconds, or `none` when the header is
absent or unparseable. -/
def parseRetryAfter (now : ℤ) (response : Resp) : Option ℤ :=
  match response.retryAfter with
  | none => none
  | some (.seconds n) => some (n * 1000)
  | some (.httpDate t) => some (max 0 (t - now))
  | some .invalid => none

/-! ## The retry loop (`withRetry`)

`withRetry(fn, options)` loops `attempt = 0 .. maxRetries`; each failed
attempt is classified, terminal or exhausted failures re-throw the caught
error object unchanged, and otherwise the loop sleeps and retries. The
model makes the external behaviour of `fn` a function of the attempt
number, threads the `Math.random()` samples as `u`, and records the trace:
the result, the number of calls to `fn`, and the list of sleep durations.
The recursion is on `remaining = maxRetries - attempt`, so `remaining = 0`
is the code's `attempt === maxRetries` final-attempt case. -/

/-- The delay chosen for a failed, retryable attempt (`withRetry`, the
`var delay` computation): a RateLimit failure with an attached response
uses `parseRetryAfter(resp) || getRetryDelay(attempt, baseDelay*2, maxDelay)`
(JS `||`: a parsed value of `0` is falsy and falls back to the doubled-base
backoff), anything else uses `getRetryDelay(attempt, baseDelay, maxDelay)`. -/
def retrySleepDelay (errorType : ErrorType) (resp : Option Resp) (now : ℤ)
    (attempt : ℕ) (baseDelay maxDelay u : ℚ) : ℚ :=
  match errorType, resp with
  | .rateLimit, some r =>
    match parseRetryAfter now r with
    | some v => if v = 0 then getRetryDelay attempt (baseDelay * 2) maxDelay u else (v : ℚ)
    | none => getRetryDelay attempt (baseDelay * 2) maxDelay u
  | _, _ => getRetryDelay attempt baseDelay maxDelay u

/-- The body of `withRetry` from attempt `attempt` on, with
`remaining = maxRetries - attempt` attempts still allowed after this one.
Returns the final result, how many times `fn` was invoked, and the sleeps
performed (in order). -/
def withRetryGo (fn : ℕ → Except Err α) (baseDelay maxDelay : ℚ) (u : ℕ → ℚ)
    (now : ℤ) : ℕ → ℕ → Except Err α × ℕ × List ℚ
  | attempt, 0 =>
    match fn attempt with
    | .ok v => (.ok v, 1, [])
    | .error e => (.error e, 1, [])
  | attempt, remaining + 1 =>
    match fn attempt with
    | .ok v => (.ok v, 1, [])
    | .error e =>
      let errorType := classifyError e e.response
      if isRetryable errorType = false then (.error e, 1, [])
      else
        let delay := retrySleepDelay errorType e.response now attempt baseDelay maxDelay (u attempt)
        let rest := withRetryGo fn baseDelay maxDelay u now (attempt + 1) remaining
        (rest.1, rest.2.1 + 1, delay :: rest.2.2)

/-- `withRetry(fn, {maxRetries, baseDelay, maxDelay})` from `lib/retry`,
starting at attempt 0. -/
def withRetry (fn : ℕ → Except Err α) (maxRetries : ℕ) (baseDelay maxDelay : ℚ)
    (u : ℕ → ℚ) (now : ℤ) : Except Err α × ℕ × List ℚ :=
  withRetryGo fn baseDelay maxDelay u now 0 maxRetries

/-! ## Usage tracking (`lib/token-tracker.js`)

Prices are per 1M tokens; JS objects with string keys become association
lists, preserving the source's insertion order (which `for..in` /
`Object.keys` iterate). -/

/-- The `PRICING` table of `token-tracker.js`. -/
def PRICING : List (String × List (String × ℚ × ℚ)) :=
  [("openai",
    [("gpt-4o-mini", (3/20, 3/5)),
     ("gpt-4o", (5/2, 10)),
     ("gpt-4-turbo", (10, 30)),
     ("gpt-3.5-turbo", (1/2, 3/2))]),
   ("anthropic",
    [("claude-3-haiku-20240307", (1/4, 5/4)),
     ("claude-3-5-sonnet-20241022", (3, 15)),
     ("claude-3-sonnet-20240229", (3, 15)),
     ("claude-3-opus-20240229", (15, 75))]),
   ("gemini",
    [("gemini-1.5-flash", (3/40, 3/10)),
     ("gemini-1.5-pro", (5/4, 5)),
     ("gemini-pro", (1/2, 3/2))])]

/-- `DEFAULT_PRICING` of `token-tracker.js`. -/
def DEFAULT_PRICING : ℚ × ℚ := (1/2, 3/2)

/-- `getPricing(provider, model)`. The JS falsiness tests `!provider` /
`if (model)` are the `= ""` guards (the arguments are strings there). -/
def getPricing (provider model : String) : ℚ × ℚ :=
  if provider = "" then DEFAULT_PRICING
  else
    match PRICING.lookup provider with
    | none => DEFAULT_PRICING
    | some providerPricing =>
      match (if model = "" then none else providerPricing.lookup model) with
      | some p => p
      | none =>
        match (if model = "" then none
               else providerPricing.find?
                 (fun kv => strIncludes model kv.1 || strIncludes kv.1 model)) with
        | some kv => kv.2
        | none =>
          match providerPricing.head? with
          | some kv => kv.2
          | none => DEFAULT_PRICING

/-- `calculateCost(provider, model, inputTokens, outputTokens)`. -/
def calculateCost (provider model : String) (inputTokens outputTokens : ℚ) : ℚ :=
  let pricing := getPricing provider model
  (inputTokens / 1000000) * pricing.1 + (outputTokens / 1000000) * pricing.2

/-- A running usage total, as created by `createEmptyUsage`. -/
structure Usage where
  inputTokens : ℤ
  outputTokens : ℤ
  totalTokens : ℤ
  estimatedCost : ℚ
deriving DecidableEq

/-- `createEmptyUsage()`. -/
def createEmptyUsage : Usage :=
  { inputTokens := 0, outputTokens := 0, totalTokens := 0, estimatedCost := 0 }

/-- A usage delta as consumed by `addUsage`: each field may be absent
(`undefined` in JS, handled by `|| 0` / the `||` fallback). -/
structure UsageDelta where
  inputTokens : Option ℤ
  outputTokens : Option ℤ
  totalTokens : Option ℤ
deriving DecidableEq

/-- `addUsage(total, usage)`: a null delta is a no-op; otherwise the three
counters are incremented, `totalTokens` by the delta's own `totalTokens`
unless that is absent or `0` (both falsy under JS `||`), in which case by
the sum of the delta's input and output counts. -/
def addUsage (total : Usage) (usage : Option UsageDelta) : Usage :=
  match usage with
  | none => total
  | some u =>
    { total with
      inputTokens := total.inputTokens + u.inputTokens.getD 0
      outputTokens := total.outputTokens + u.outputTokens.getD 0
      totalTokens := total.totalTokens +
        (match u.totalTokens with
         | some t => if t = 0 then u.inputTokens.getD 0 + u.outputTokens.getD 0 else t
         | none => u.inputTokens.getD 0 + u.outputTokens.getD 0) }

/-! ## The concurrent batch loop of `analyzeSheet` (`lib/analyzer.js`)

`analyzeSheet` processes the filtered sheet objects in consecutive windows
of `BATCH_SIZE` items, writing each window's results into
`objectSummaries[result.index]` and polling `cancelToken.cancelled` before
the loop (twice, lines 104 and 128) and before each window (line 192).

Model notes:
* the per-item remote analysis (`analyzeObject`, an awaited provider call)
  is the external parameter `analyze`; a rejected promise is `.error msg`;
* the mutable `cancelToken.cancelled` flag is modelled by the sequence of
  values it returns at the successive polls, `cancelled : ℕ → Bool`
  (poll 0 = line 104, poll 1 = line 128, poll `2 + w` = window `w`);
* the window is awaited with `Promise.all` and its results are then written
  by `result.index`; the order in which the `forEach` receives them is
  parameterised by `reorder`, an arbitrary per-window rearrangement of the
  window's result list, so that theorems quantify over every completion
  order (hypothesis: each `reorder poll` yields a permutation);
* the JS `objectSummaries` array is the map `ℕ → Option OutData`; the final
  `objectSummaries.filter(Boolean)` reads present entries in index order;
* `delete result.data.usage` before storing is modelled by clearing the
  `usage` field; timestamps (`new Date().toISOString()`), the `totalUsage`
  accumulator and progress messages are not modelled (no claim depends on
  them).
-/

/-- A filtered sheet object, with the fields `analyzeWithErrorHandling`
copies into the outcome. -/
structure Item where
  id : String
  title : String
  type : String
  showHoverMenu : Bool
deriving DecidableEq, Inhabited

/-- The `{ text, usage }` value an `analyzeObject` call resolves with. -/
structure ObjResult where
  text : String
  usage : Option UsageDelta
deriving DecidableEq

/-- One entry of `objectSummaries`. A successful analysis leaves the JS
`error` field undefined (falsy), modelled as `error := false`. -/
structure OutData where
  id : String
  title : String
  type : String
  summary : String
  showHoverMenu : Bool
  error : Bool
  usage : Option UsageDelta
deriving DecidableEq, Inhabited

/-- `analyzeWithErrorHandling(obj, index)` from `analyzeSheet`: runs the
worker and converts success or failure into an `{index, data}` record;
a thrown error becomes a failed outcome carrying the error's message. -/
def analyzeWithErrorHandling (analyze : Item → Except String ObjResult)
    (obj : Item) (index : ℕ) : ℕ × OutData :=
  match analyze obj with
  | .ok result =>
    (index, { id := obj.id, title := obj.title, type := obj.type,
              summary := result.text, showHoverMenu := obj.showHoverMenu,
              error := false, usage := result.usage })
  | .error err =>
    (index, { id := obj.id, title := obj.title, type := obj.type,
              summary := "Analysis failed: " ++ err,
              showHoverMenu := obj.showHoverMenu,
              error := true, usage := none })

/-- `delete result.data.usage`: the stored record with its `usage` field
removed. -/
def stripUsage (d : OutData) : OutData :=
  { d with usage := none }

/-- One step of the per-window `forEach`: `delete result.data.usage` then
`objectSummaries[result.index] = result.data`. -/
def storeResult (arr : ℕ → Option OutData) (result : ℕ × OutData) : ℕ → Option OutData :=
  Function.update arr result.1 (some (stripUsage result.2))

/-- The `for (batchStart ...; batchStart += BATCH_SIZE)` loop of
`analyzeSheet` (lines 190–229), over the remaining items. `batchStart` is
the index of the first remaining item, `poll` counts cancellation polls so
far, and `arr` is the `objectSummaries` array. Returns the list of indices
at which the worker was invoked, and either the Cancelled fault or the
final array. Defined for `C ≥ 1` (the source uses `BATCH_SIZE = 3`):
`obj :: rest.take (C - 1)` is `remaining.slice(0, C)`. -/
def batchLoop (analyze : Item → Except String ObjResult) (cancelled : ℕ → Bool)
    (reorder : ℕ → List (ℕ × OutData) → List (ℕ × OutData)) (C : ℕ) :
    List Item → ℕ → ℕ → (ℕ → Option OutData) →
      List ℕ × Except String (ℕ → Option OutData)
  | [], _, _, arr => ([], .ok arr)
  | obj :: rest, batchStart, poll, arr =>
    if cancelled poll then ([], .error "Analysis cancelled")
    else
      let batch := obj :: rest.take (C - 1)
      let batchResults := batch.mapIdx
        (fun batchIndex o => analyzeWithErrorHandling analyze o (batchStart + batchIndex))
      let arr2 := (reorder poll batchResults).foldl storeResult arr
      let next := batchLoop analyze cancelled reorder C
        (rest.drop (C - 1)) (batchStart + C) (poll + 1) arr2
      ((List.range batch.length).map (fun bi => batchStart + bi) ++ next.1, next.2)
  termination_by remaining _ _ _ => remaining.length
  decreasing_by simp [List.length_drop]; omega

/-- The batch-relevant portion of `analyzeSheet` (lines 104–232): the two
pre-batch cancellation checks, the early return when there is nothing to
analyze, the window loop, and the final
`objectSummaries.filter(function(s) { return s; })` read-out. -/
def analyzeSheetRun (analyze : Item → Except String ObjResult) (cancelled : ℕ → Bool)
    (reorder : ℕ → List (ℕ × OutData) → List (ℕ × OutData)) (C : ℕ)
    (items : List Item) : List ℕ × Except String (List OutData) :=
  if cancelled 0 then ([], .error "Analysis cancelled")
  else if items.length = 0 then ([], .ok [])
  else if cancelled 1 then ([], .error "Analysis cancelled")
  else
    match batchLoop analyze cancelled reorder C items 0 2 (fun _ => none) with
    | (calls, .error e) => (calls, .error e)
    | (calls, .ok arr) => (calls, .ok ((List.range items.length).filterMap arr))

/-! ## Theorems: classifier and backoff -/

/-- C5: `classifyError` maps a present response status 401/403 to Auth, 429
to RateLimit, 400 to Validation and 500–599 to Server, with priority over
the message; any other input falls through to the lower-cased message
substring tests in order (timeout, network, auth, rate-limit groups), and
everything else is Unknown. -/
theorem classifyError_spec (e : Err) :
    (∀ r : Resp, r.status = 401 ∨ r.status = 403 → classifyError e (some r) = .auth) ∧
    (∀ r : Resp, r.status = 429 → classifyError e (some r) = .rateLimit) ∧
    (∀ r : Resp, r.status = 400 → classifyError e (some r) = .validation) ∧
    (∀ r : Resp, 500 ≤ r.status → r.status < 600 → classifyError e (some r) = .server) ∧
    (∀ r : Resp, r.status ≠ 401 → r.status ≠ 403 → r.status ≠ 429 → r.status ≠ 400 →
      ¬(500 ≤ r.status ∧ r.status < 600) →
      classifyError e (some r) = classifyByMessage e.message) ∧
    (classifyError e none = classifyByMessage e.message) ∧
    (let m := strToLower e.message
     ((strIncludes m "timeout" || strIncludes m "timed out") = true →
        classifyByMessage e.message = .timeout) ∧
     ((strIncludes m "timeout" || strIncludes m "timed out") = false →
      (strIncludes m "network" || strIncludes m "fetch" || strIncludes m "connection") = true →
        classifyByMessage e.message = .network) ∧
     ((strIncludes m "timeout" || strIncludes m "timed out") = false →
      (strIncludes m "network" || strIncludes m "fetch" || strIncludes m "connection") = false →
      (strIncludes m "api key" || strIncludes m "unauthorized" || strIncludes m "authentication") = true →
        classifyByMessage e.message = .auth) ∧
     ((strIncludes m "timeout" || strIncludes m "timed out") = false →
      (strIncludes m "network" || strIncludes m "fetch" || strIncludes m "connection") = false →
      (strIncludes m "api key" || strIncludes m "unauthorized" || strIncludes m "authentication") = false →
      (strIncludes m "rate" || strIncludes m "limit" || strIncludes m "quota") = true →
        classifyByMessage e.message = .rateLimit) ∧
     ((strIncludes m "timeout" || strIncludes m "timed out") = false →
      (strIncludes m "network" || strIncludes m "fetch" || strIncludes m "connection") = false →
      (strIncludes m "api key" || strIncludes m "unauthorized" || strIncludes m "authentication") = false →
      (strIncludes m "rate" || strIncludes m "limit" || strIncludes m "quota") = false →
        classifyByMessage e.message = .unknown)) := by
  refine ⟨?_, ?_, ?_, ?_, ?_, rfl, ?_, ?_, ?_, ?_, ?_⟩
  · rintro r (h | h) <;> simp [classifyError, h]
  · intro r h
    simp [classifyError, h]
  · intro r h
    simp [classifyError, h]
  · intro r h1 h2
    have : ¬ (r.status = 401 || r.status = 403) = true := by
      simp only [Bool.or_eq_true, decide_eq_true_eq]
      omega
    simp only [classifyError]
    rw [if_neg this, if_neg (by omega), if_neg (by omega),
      if_pos (by simp only [Bool.and_eq_true, decide_eq_true_eq]; omega)]
  · intro r h1 h2 h3 h4 h5
    have hb : ¬ (r.status = 401 || r.status = 403) = true := by
      simp only [Bool.or_eq_true, decide_eq_true_eq]; omega
    have hs : ¬ (500 ≤ r.status && r.status < 600) = true := by
      simp only [Bool.and_eq_true, decide_eq_true_eq]; omega
    simp only [classifyError]
    rw [if_neg hb, if_neg (by omega), if_neg (by omega), if_neg hs]
  · intro h
    simp only [classifyByMessage]
    rw [if_pos h]
  · intro h1 h2
    simp only [classifyByMessage]
    rw [if_neg (by simp [h1]), if_pos h2]
  · intro h1 h2 h3
    simp only [classifyByMessage]
    rw [if_neg (by simp [h1]), if_neg (by simp [h2]), if_pos h3]
  · intro h1 h2 h3 h4
    simp only [classifyByMessage]
    rw [if_neg (by simp [h1]), if_neg (by simp [h2]), if_neg (by simp [h3]), if_pos h4]
  · intro h1 h2 h3 h4
    simp only [classifyByMessage]
    rw [if_neg (by simp [h1]), if_neg (by simp [h2]), if_neg (by simp [h3]), if_neg (by simp [h4])]

/-- C5 witness: concrete evaluations discharging the hypotheses of
`classifyError_spec` at explicit inputs. -/
theorem classifyError_spec_witness :
    classifyError ⟨"boom", none⟩ (some ⟨403, none⟩) = .auth ∧
    classifyError ⟨"boom", none⟩ (some ⟨429, none⟩) = .rateLimit ∧
    classifyError ⟨"boom", none⟩ (some ⟨400, none⟩) = .validation ∧
    classifyError ⟨"boom", none⟩ (some ⟨503, none⟩) = .server ∧
    classifyError ⟨"Request timed out after 30 seconds", none⟩ (some ⟨404, none⟩) = .timeout ∧
    classifyByMessage "A Network glitch" = .network ∧
    classifyByMessage "bad API key" = .auth ∧
    classifyByMessage "quota exceeded" = .rateLimit ∧
    classifyByMessage "boom" = .unknown := by
  have h := classifyError_spec ⟨"boom", none⟩
  have ht := classifyError_spec ⟨"Request timed out after 30 seconds", none⟩
  have hn := classifyError_spec ⟨"A Network glitch", none⟩
  have ha := classifyError_spec ⟨"bad API key", none⟩
  have hq := classifyError_spec ⟨"quota exceeded", none⟩
  refine ⟨h.1 _ (Or.inr rfl), h.2.1 _ rfl, h.2.2.1 _ rfl,
    h.2.2.2.1 _ (by norm_num) (by norm_num), ?_, ?_, ?_, ?_, ?_⟩
  · rw [ht.2.2.2.2.1 _ (by decide) (by decide) (by decide) (by decide) (by decide)]
    exact ht.2.2.2.2.2.2.1 (by decide)
  · exact hn.2.2.2.2.2.2.2.1 (by decide) (by decide)
  · exact ha.2.2.2.2.2.2.2.2.1 (by decide) (by decide) (by decide)
  · exact hq.2.2.2.2.2.2.2.2.2.1 (by decide) (by decide) (by decide) (by decide)
  · exact h.2.2.2.2.2.2.2.2.2.2 (by decide) (by decide) (by decide) (by decide)

/-- C6: `isRetryable` holds exactly on RateLimit, Network, Server and
Timeout; in particular Auth, Validation and Unknown are not retryable. -/
theorem isRetryable_spec :
    (∀ c : ErrorType, isRetryable c = true ↔
      (c = .rateLimit ∨ c = .network ∨ c = .server ∨ c = .timeout)) ∧
    isRetryable .auth = false ∧ isRetryable .validation = false ∧
    isRetryable .unknown = false ∧ isRetryable .rateLimit = true := by
  refine ⟨fun c => ?_, rfl, rfl, rfl, rfl⟩
  cases c <;> simp [isRetryable]

/-- C8: the backoff delay equals `min (b·2^a + b·2^a·0.3·u) m`, never
exceeds `maxDelay`, and is pointwise non-decreasing in the attempt number
for every fixed jitter sample (hence non-decreasing in expectation over any
distribution of the sample). -/
theorem getRetryDelay_spec (attempt : ℕ) (baseDelay maxDelay u : ℚ)
    (hb : 0 < baseDelay) (hm : 0 ≤ maxDelay) (hu0 : 0 ≤ u) (hu1 : u < 1) :
    getRetryDelay attempt baseDelay maxDelay u =
      min (baseDelay * 2 ^ attempt + baseDelay * 2 ^ attempt * (3 / 10) * u) maxDelay ∧
    getRetryDelay attempt baseDelay maxDelay u ≤ maxDelay ∧
    getRetryDelay attempt baseDelay maxDelay u ≤
      getRetryDelay (attempt + 1) baseDelay maxDelay u := by
  refine ⟨by simp only [getRetryDelay]; ring_nf, min_le_right _ _, ?_⟩
  apply min_le_min _ le_rfl
  have hexp : baseDelay * 2 ^ attempt ≤ baseDelay * 2 ^ (attempt + 1) := by
    apply mul_le_mul_of_nonneg_left _ hb.le
    exact pow_le_pow_right₀ (by norm_num) (Nat.le_succ attempt)
  have hj : baseDelay * 2 ^ attempt * u * (3 / 10) ≤
      baseDelay * 2 ^ (attempt + 1) * u * (3 / 10) := by
    apply mul_le_mul_of_nonneg_right _ (by norm_num)
    exact mul_le_mul_of_nonneg_right hexp hu0
  exact add_le_add hexp hj

/-- C8 witness: instantiation at attempt 0, base 1000, max 30000, jitter
sample 1/2. -/
theorem getRetryDelay_spec_witness :
    getRetryDelay 0 1000 30000 (1/2) =
      min ((1000 : ℚ) * 2 ^ 0 + 1000 * 2 ^ 0 * (3 / 10) * (1/2)) 30000 ∧
    getRetryDelay 0 1000 30000 (1/2) ≤ 30000 ∧
    getRetryDelay 0 1000 30000 (1/2) ≤ getRetryDelay 1 1000 30000 (1/2) :=
  getRetryDelay_spec 0 1000 30000 (1/2) (by norm_num) (by norm_num) (by norm_num) (by norm_num)

/-- The number of calls `withRetryGo` makes is at most `remaining + 1`. -/
lemma withRetryGo_calls_le (fn : ℕ → Except Err α) (b m : ℚ) (u : ℕ → ℚ) (now : ℤ) :
    ∀ remaining attempt, (withRetryGo fn b m u now attempt remaining).2.1 ≤ remaining + 1 := by
  intro remaining
  induction remaining with
  | zero =>
    intro attempt
    simp only [withRetryGo]
    cases fn attempt <;> simp
  | succ n ih =>
    intro attempt
    simp only [withRetryGo]
    cases fn attempt with
    | ok v => simp
    | error e =>
      simp only
      by_cases hr : isRetryable (classifyError e e.response) = false
      · rw [if_pos hr]; simp
      · rw [if_neg hr]
        have := ih (attempt + 1)
        simp only
        omega

/-- When `withRetryGo` ends in an error, that error is exactly the value
`fn` produced on the last attempt made. -/
lemma withRetryGo_error_src (fn : ℕ → Except Err α) (b m : ℚ) (u : ℕ → ℚ) (now : ℤ) :
    ∀ remaining attempt e, (withRetryGo fn b m u now attempt remaining).1 = .error e →
      fn (attempt + (withRetryGo fn b m u now attempt remaining).2.1 - 1) = .error e := by
  intro remaining
  induction remaining with
  | zero =>
    intro attempt e
    simp only [withRetryGo]
    cases hf : fn attempt with
    | ok v => simp
    | error e0 =>
      simp only
      intro h
      cases h
      simpa using hf
  | succ n ih =>
    intro attempt e
    simp only [withRetryGo]
    cases hf : fn attempt with
    | ok v => simp
    | error e0 =>
      simp only
      by_cases hr : isRetryable (classifyError e0 e0.response) = false
      · rw [if_pos hr]
        intro h
        cases h
        simpa using hf
      · rw [if_neg hr]
        intro h
        simp only at h
        have h2 := ih (attempt + 1) e h
        have harith : attempt + ((withRetryGo fn b m u now (attempt + 1) n).2.1 + 1) - 1 =
            attempt + 1 + (withRetryGo fn b m u now (attempt + 1) n).2.1 - 1 := by
          omega
        simpa [harith] using h2

/-- C4: `withRetry` calls `fn` at most `maxRetries + 1` times; when it ends
in failure it raises the error object of the last attempt unchanged; and a
first-attempt failure classified Auth is raised immediately: one call, no
sleeps. -/
theorem withRetry_spec (fn : ℕ → Except Err α) (maxRetries : ℕ)
    (baseDelay maxDelay : ℚ) (u : ℕ → ℚ) (now : ℤ) :
    (withRetry fn maxRetries baseDelay maxDelay u now).2.1 ≤ maxRetries + 1 ∧
    (∀ e, (withRetry fn maxRetries baseDelay maxDelay u now).1 = .error e →
      fn ((withRetry fn maxRetries baseDelay maxDelay u now).2.1 - 1) = .error e) ∧
    (∀ e, fn 0 = .error e → classifyError e e.response = .auth →
      withRetry fn maxRetries baseDelay maxDelay u now = (.error e, 1, [])) := by
  refine ⟨withRetryGo_calls_le fn baseDelay maxDelay u now maxRetries 0, ?_, ?_⟩
  · intro e h
    simpa using withRetryGo_error_src fn baseDelay maxDelay u now maxRetries 0 e h
  · intro e hf hc
    cases maxRetries with
    | zero => simp [withRetry, withRetryGo, hf]
    | succ n =>
      simp only [withRetry, withRetryGo, hf]
      rw [if_pos (by rw [hc]; rfl)]

/-- C4 witness: a call that always fails with an Auth-classified error under
`maxRetries = 1` makes at most two and in fact exactly one call, with no
sleeps. -/
theorem withRetry_spec_witness :
    (withRetry (fun _ => Except.error (α := Unit) ⟨"bad api key", none⟩) 1 1000 30000
        (fun _ => 0) 0).2.1 ≤ 1 + 1 ∧
    withRetry (fun _ => Except.error (α := Unit) ⟨"bad api key", none⟩) 1 1000 30000
        (fun _ => 0) 0 = (.error ⟨"bad api key", none⟩, 1, []) := by
  have h := withRetry_spec (fun _ => Except.error (α := Unit) ⟨"bad api key", none⟩)
    1 1000 30000 (fun _ => 0) 0
  exact ⟨h.1, h.2.2 ⟨"bad api key", none⟩ rfl (by decide)⟩

/-- C7 counterexample: a RateLimit failure whose response carries the
retry-after value `0` seconds. The parsed hint is `0` ms, but because the
code computes `parseRetryAfter(resp) || getRetryDelay(...)` and `0` is
falsy in JS, the retry sleeps the doubled-base backoff (2000 ms with base
1000 and jitter sample 0), not the carried value `0`. -/
theorem retryAfter_zero_counterexample :
    parseRetryAfter 0 ⟨429, some (.seconds 0)⟩ = some 0 ∧
    (withRetry (fun _ => Except.error (α := Unit)
        ⟨"HTTP 429: Too Many Requests", some ⟨429, some (.seconds 0)⟩⟩)
      1 1000 30000 (fun _ => 0) 0).2.2 = [2000] ∧
    (2000 : ℚ) ≠ 0 := by
  refine ⟨rfl, ?_, by norm_num⟩
  simp only [withRetry, withRetryGo]
  rw [if_neg (by decide)]
  simp only [withRetryGo]
  norm_num [retrySleepDelay, parseRetryAfter, getRetryDelay, classifyError]

/-- The sleep recorded at position `k` of the retry trace: if the loop
reaches attempt `attempt + k` (every earlier attempt in the run failed with
a retryable classification), that attempt fails with error `ek`, and it is
not the final allowed attempt, then the `k`-th sleep is the delay computed
for `ek` at attempt `attempt + k`. -/
lemma withRetryGo_sleep_at (fn : ℕ → Except Err α) (b m : ℚ) (u : ℕ → ℚ) (now : ℤ) :
    ∀ (k attempt remaining : ℕ) (ek : Err), k < remaining →
      (∀ i, i ≤ k → ∃ ei, fn (attempt + i) = .error ei ∧
        isRetryable (classifyError ei ei.response) = true) →
      fn (attempt + k) = .error ek →
      (withRetryGo fn b m u now attempt remaining).2.2.get? k =
        some (retrySleepDelay (classifyError ek ek.response) ek.response now
          (attempt + k) b m (u (attempt + k))) := by
  intro k
  induction k with
  | zero =>
    intro attempt remaining ek hlt hreach hfk
    match remaining, hlt with
    | rem + 1, _ =>
      obtain ⟨e0, hf0, hret0⟩ := hreach 0 (Nat.le_refl 0)
      simp only [Nat.add_zero] at hf0 hfk ⊢
      have hek : e0 = ek := Except.error.inj (hf0.symm.trans hfk)
      subst hek
      simp only [withRetryGo, hf0]
      rw [if_neg (by simp [hret0])]
      simp
  | succ k0 ih =>
    intro attempt remaining ek hlt hreach hfk
    match remaining, hlt with
    | rem + 1, _ =>
      obtain ⟨e0, hf0, hret0⟩ := hreach 0 (Nat.zero_le _)
      simp only [Nat.add_zero] at hf0
      simp only [withRetryGo, hf0]
      rw [if_neg (by simp [hret0])]
      simp only [List.get?_cons_succ]
      have hshift : ∀ i, i ≤ k0 → ∃ ei, fn (attempt + 1 + i) = .error ei ∧
          isRetryable (classifyError ei ei.response) = true := by
        intro i hi
        have h := hreach (i + 1) (by omega)
        have harith : attempt + (i + 1) = attempt + 1 + i := by omega
        rwa [harith] at h
      have hfk2 : fn (attempt + 1 + k0) = .error ek := by
        have harith : attempt + (k0 + 1) = attempt + 1 + k0 := by omega
        rwa [harith] at hfk
      rw [ih (attempt + 1) rem ek (by omega) hshift hfk2]
      have harith : attempt + 1 + k0 = attempt + (k0 + 1) := by omega
      rw [harith]

/-- C7 (amended): whenever the retry loop reaches attempt `a` (all earlier
attempts failed with retryable classifications), attempt `a` fails with a
RateLimit-classified error carrying a response, and retries remain, the
sleep before the next attempt is the parsed retry-after value when that
value is nonzero; when the header is absent, unparseable, or parses to `0`,
it is the exponential backoff computed with a doubled base delay at attempt
`a`. -/
theorem withRetry_rateLimit_delay (fn : ℕ → Except Err α) (maxRetries : ℕ)
    (baseDelay maxDelay : ℚ) (u : ℕ → ℚ) (now : ℤ) (a : ℕ) (e : Err) (r : Resp)
    (ha : a < maxRetries)
    (hreach : ∀ i, i ≤ a → ∃ ei, fn i = .error ei ∧
      isRetryable (classifyError ei ei.response) = true)
    (hf : fn a = .error e) (hresp : e.response = some r)
    (hclass : classifyError e e.response = .rateLimit) :
    (withRetry fn maxRetries baseDelay maxDelay u now).2.2.get? a =
      some (match parseRetryAfter now r with
            | some v =>
              if v = 0 then getRetryDelay a (baseDelay * 2) maxDelay (u a) else (v : ℚ)
            | none => getRetryDelay a (baseDelay * 2) maxDelay (u a)) := by
  have h := withRetryGo_sleep_at fn baseDelay maxDelay u now a 0 maxRetries e ha
    (by intro i hi
        simpa using hreach i hi)
    (by simpa using hf)
  simp only [withRetry]
  rw [h, hclass, hresp]
  simp only [Nat.zero_add, retrySleepDelay]

/-- C7 witness: a call failing every time with retry-after 5 seconds under
`maxRetries = 2` sleeps exactly 5000 ms before its second retry (the sleep
recorded after attempt 1). -/
theorem withRetry_rateLimit_delay_witness :
    (withRetry (fun _ => Except.error (α := Unit)
        ⟨"HTTP 429: Too Many Requests", some ⟨429, some (.seconds 5)⟩⟩)
      2 1000 30000 (fun _ => 0) 0).2.2.get? 1 = some 5000 := by
  have h := withRetry_rateLimit_delay (fun _ => Except.error (α := Unit)
      ⟨"HTTP 429: Too Many Requests", some ⟨429, some (.seconds 5)⟩⟩)
    2 1000 30000 (fun _ => 0) 0 1
    ⟨"HTTP 429: Too Many Requests", some ⟨429, some (.seconds 5)⟩⟩
    ⟨429, some (.seconds 5)⟩
    (by norm_num)
    (fun i hi => ⟨⟨"HTTP 429: Too Many Requests", some ⟨429, some (.seconds 5)⟩⟩,
      rfl, by decide⟩)
    rfl rfl (by decide)
  rw [h]
  norm_num [parseRetryAfter]

/-! ## Theorems: usage tracking -/

/-- C9: `getPricing` resolves, in order, exact provider+model match, then
the first bidirectional-substring match against the provider's known model
keys, then the provider's first known model, then the hard-coded default
(in particular for every unknown provider); it is a total function, and
`calculateCost` is `in/1e6 · rate.input + out/1e6 · rate.output` of the
resolved rate. -/
theorem getPricing_resolution (provider model : String)
    (inputTokens outputTokens : ℚ) :
    (∀ table rate, PRICING.lookup provider = some table → model ≠ "" →
      table.lookup model = some rate → getPricing provider model = rate) ∧
    (∀ table kv, PRICING.lookup provider = some table → model ≠ "" →
      table.lookup model = none →
      table.find? (fun kv => strIncludes model kv.1 || strIncludes kv.1 model) = some kv →
      getPricing provider model = kv.2) ∧
    (∀ table kv0, PRICING.lookup provider = some table → model ≠ "" →
      table.lookup model = none →
      table.find? (fun kv => strIncludes model kv.1 || strIncludes kv.1 model) = none →
      table.head? = some kv0 →
      getPricing provider model = kv0.2) ∧
    (∀ table kv0, PRICING.lookup provider = some table → model = "" →
      table.head? = some kv0 → getPricing provider model = kv0.2) ∧
    (PRICING.lookup provider = none → getPricing provider model = DEFAULT_PRICING) ∧
    (calculateCost provider model inputTokens outputTokens =
      (inputTokens / 1000000) * (getPricing provider model).1 +
      (outputTokens / 1000000) * (getPricing provider model).2) := by
  have hblank : provider = "" → PRICING.lookup provider = none := by
    intro h; rw [h]; decide
  refine ⟨?_, ?_, ?_, ?_, ?_, rfl⟩
  · intro table rate htab hm hlook
    have hp : ¬ provider = "" := fun h => by simp [hblank h] at htab
    simp [getPricing, hp, htab, hm, hlook]
  · intro table kv htab hm hlook hfind
    have hp : ¬ provider = "" := fun h => by simp [hblank h] at htab
    simp [getPricing, hp, htab, hm, hlook, hfind]
  · intro table kv0 htab hm hlook hfind hhead
    have hp : ¬ provider = "" := fun h => by simp [hblank h] at htab
    simp [getPricing, hp, htab, hm, hlook, hfind, hhead]
  · intro table kv0 htab hm hhead
    have hp : ¬ provider = "" := fun h => by simp [hblank h] at htab
    simp [getPricing, hp, htab, hm, hhead]
  · intro hnone
    by_cases hp : provider = ""
    · simp [getPricing, hp]
    · simp [getPricing, hp, hnone]

/-- C9 witness: concrete resolutions — exact match, substring match of a
versioned model id, first-model fallback, and unknown-provider default —
plus a concrete cost. -/
theorem getPricing_resolution_witness :
    getPricing "openai" "gpt-4o" = (5/2, 10) ∧
    getPricing "gemini" "gemini-1.5-pro-002" = (5/4, 5) ∧
    getPricing "anthropic" "claude-sonnet-4-5-20250929" = (1/4, 5/4) ∧
    getPricing "mistral" "mistral-large" = DEFAULT_PRICING ∧
    calculateCost "openai" "gpt-4o" 1000000 2000000 =
      (1000000 / 1000000) * (getPricing "openai" "gpt-4o").1 +
      (2000000 / 1000000) * (getPricing "openai" "gpt-4o").2 := by
  have h1 := getPricing_resolution "openai" "gpt-4o" 1000000 2000000
  have h2 := getPricing_resolution "gemini" "gemini-1.5-pro-002" 0 0
  have h3 := getPricing_resolution "anthropic" "claude-sonnet-4-5-20250929" 0 0
  have h4 := getPricing_resolution "mistral" "mistral-large" 0 0
  refine ⟨h1.1 [("gpt-4o-mini", (3/20, 3/5)), ("gpt-4o", (5/2, 10)),
        ("gpt-4-turbo", (10, 30)), ("gpt-3.5-turbo", (1/2, 3/2))] (5/2, 10)
        rfl (by decide) rfl,
      ?_, ?_, h4.2.2.2.2.1 rfl, h1.2.2.2.2.2⟩
  · exact h2.2.1 [("gemini-1.5-flash", (3/40, 3/10)), ("gemini-1.5-pro", (5/4, 5)),
      ("gemini-pro", (1/2, 3/2))] ("gemini-1.5-pro", (5/4, 5))
      rfl (by decide) rfl rfl
  · exact h3.2.2.1 [("claude-3-haiku-20240307", (1/4, 5/4)),
      ("claude-3-5-sonnet-20241022", (3, 15)), ("claude-3-sonnet-20240229", (3, 15)),
      ("claude-3-opus-20240229", (15, 75))] ("claude-3-haiku-20240307", (1/4, 5/4))
      rfl (by decide) rfl rfl rfl

/-- C10: `createEmptyUsage` satisfies `totalTokens = inputTokens +
outputTokens`, and `addUsage` preserves that equality for every delta
(including a null one) whose own `totalTokens` is absent, zero, or equal to
the delta's `inputTokens + outputTokens`. -/
theorem addUsage_preserves_total (total : Usage) (delta : Option UsageDelta)
    (hinv : total.totalTokens = total.inputTokens + total.outputTokens)
    (hdelta : ∀ u, delta = some u →
      u.totalTokens = none ∨ u.totalTokens = some 0 ∨
      u.totalTokens = some (u.inputTokens.getD 0 + u.outputTokens.getD 0)) :
    createEmptyUsage.totalTokens =
      createEmptyUsage.inputTokens + createEmptyUsage.outputTokens ∧
    (addUsage total delta).totalTokens =
      (addUsage total delta).inputTokens + (addUsage total delta).outputTokens := by
  refine ⟨rfl, ?_⟩
  match delta with
  | none => simpa [addUsage] using hinv
  | some u =>
    rcases hdelta u rfl with h | h | h <;>
      · simp [addUsage, h, hinv]
        omega

/-- C10 witness: adding the delta `{inputTokens := 3, outputTokens := 2,
totalTokens := 5}` to the total `{10, 5, 15}` keeps the invariant. -/
theorem addUsage_preserves_total_witness :
    createEmptyUsage.totalTokens =
      createEmptyUsage.inputTokens + createEmptyUsage.outputTokens ∧
    (addUsage ⟨10, 5, 15, 0⟩ (some ⟨some 3, some 2, some 5⟩)).totalTokens =
      (addUsage ⟨10, 5, 15, 0⟩ (some ⟨some 3, some 2, some 5⟩)).inputTokens +
      (addUsage ⟨10, 5, 15, 0⟩ (some ⟨some 3, some 2, some 5⟩)).outputTokens :=
  addUsage_preserves_total ⟨10, 5, 15, 0⟩ (some ⟨some 3, some 2, some 5⟩) (by decide)
    (fun u hu => by cases hu; right; right; decide)

/-! ## Theorems: batch loop -/

/-- `analyzeWithErrorHandling` always records the item's own index. -/
lemma analyzeWithErrorHandling_fst (analyze : Item → Except String ObjResult)
    (obj : Item) (index : ℕ) :
    (analyzeWithErrorHandling analyze obj index).1 = index := by
  cases h : analyze obj <;> simp [analyzeWithErrorHandling, h]

/-- Folding `storeResult` leaves indices outside the written key set
unchanged. -/
lemma foldl_store_of_not_mem (l : List (ℕ × OutData)) (arr : ℕ → Option OutData)
    (i : ℕ) (h : i ∉ l.map Prod.fst) :
    (l.foldl storeResult arr) i = arr i := by
  induction l generalizing arr with
  | nil => rfl
  | cons p t ih =>
    simp only [List.map_cons, List.mem_cons, not_or] at h
    rw [List.foldl_cons, ih _ (by simpa using h.2)]
    simp [storeResult, Function.update_noteq h.1]

/-- With pairwise-distinct keys, folding `storeResult` stores each written
pair (with the `usage` field deleted) at its own key. -/
lemma foldl_store_of_mem (l : List (ℕ × OutData)) (arr : ℕ → Option OutData)
    (i : ℕ) (d : OutData) (hnd : (l.map Prod.fst).Nodup) (hm : (i, d) ∈ l) :
    (l.foldl storeResult arr) i = some (stripUsage d) := by
  induction l generalizing arr with
  | nil => cases hm
  | cons p t ih =>
    simp only [List.map_cons, List.nodup_cons] at hnd
    rw [List.foldl_cons]
    rcases List.mem_cons.mp hm with heq | hmt
    · rw [foldl_store_of_not_mem _ _ _ (by rw [← heq] at hnd; exact hnd.1)]
      rw [← heq]
      simp [storeResult]
    · exact ih _ hnd.2 hmt

/-- The keys written by one window are `batchStart + 0, ...,
batchStart + batch.length - 1`, in order. -/
lemma window_keys (analyze : Item → Except String ObjResult) (batch : List Item)
    (batchStart : ℕ) :
    (batch.mapIdx
        (fun batchIndex o => analyzeWithErrorHandling analyze o (batchStart + batchIndex))).map
        Prod.fst =
      (List.range batch.length).map (fun bi => batchStart + bi) := by
  rw [List.mapIdx_eq_enum_map, List.map_map]
  have h1 : (Prod.fst ∘ Function.uncurry
      fun batchIndex o => analyzeWithErrorHandling analyze o (batchStart + batchIndex)) =
      ((fun bi => batchStart + bi) ∘ Prod.fst (β := Item)) := by
    funext p
    cases p with
    | mk a b => simp [Function.uncurry, analyzeWithErrorHandling_fst]
  rw [h1, ← List.map_map, List.enum_map_fst]

/-- Each window result is a member of the window's result list. -/
lemma window_mem (analyze : Item → Except String ObjResult) (batch : List Item)
    (batchStart j : ℕ) (hj : j < batch.length) :
    (batchStart + j,
      (analyzeWithErrorHandling analyze (batch.get ⟨j, hj⟩) (batchStart + j)).2) ∈
      batch.mapIdx
        (fun batchIndex o => analyzeWithErrorHandling analyze o (batchStart + batchIndex)) := by
  have hlen : j < (batch.mapIdx
      (fun batchIndex o => analyzeWithErrorHandling analyze o (batchStart + batchIndex))).length := by
    simpa [List.length_mapIdx] using hj
  have hget := List.get_mapIdx batch
    (fun batchIndex o => analyzeWithErrorHandling analyze o (batchStart + batchIndex)) j hj hlen
  have hpair : (batchStart + j,
      (analyzeWithErrorHandling analyze (batch.get ⟨j, hj⟩) (batchStart + j)).2) =
      analyzeWithErrorHandling analyze (batch.get ⟨j, hj⟩) (batchStart + j) := by
    have hfst := analyzeWithErrorHandling_fst analyze (batch.get ⟨j, hj⟩) (batchStart + j)
    exact Prod.ext hfst.symm rfl
  rw [hpair, ← hget]
  exact List.get_mem _ _ _

/-- Unfolding of `batchLoop` on a nonempty remainder when the poll finds
the token cancelled. -/
lemma batchLoop_cancel_eq (analyze : Item → Except String ObjResult) (cancelled : ℕ → Bool)
    (reorder : ℕ → List (ℕ × OutData) → List (ℕ × OutData)) (C : ℕ)
    (obj : Item) (rest : List Item) (batchStart poll : ℕ) (arr : ℕ → Option OutData)
    (hp : cancelled poll = true) :
    batchLoop analyze cancelled reorder C (obj :: rest) batchStart poll arr =
      ([], .error "Analysis cancelled") := by
  simp only [batchLoop, hp, if_true]

/-- Unfolding of `batchLoop` on a nonempty remainder when the poll passes. -/
lemma batchLoop_cons_eq (analyze : Item → Except String ObjResult) (cancelled : ℕ → Bool)
    (reorder : ℕ → List (ℕ × OutData) → List (ℕ × OutData)) (C : ℕ)
    (obj : Item) (rest : List Item) (batchStart poll : ℕ) (arr : ℕ → Option OutData)
    (hp : cancelled poll = false) :
    batchLoop analyze cancelled reorder C (obj :: rest) batchStart poll arr =
      ((List.range (obj :: rest.take (C - 1)).length).map (fun bi => batchStart + bi) ++
          (batchLoop analyze cancelled reorder C (rest.drop (C - 1)) (batchStart + C) (poll + 1)
            ((reorder poll ((obj :: rest.take (C - 1)).mapIdx
                (fun batchIndex o => analyzeWithErrorHandling analyze o (batchStart + batchIndex)))).foldl
              storeResult arr)).1,
        (batchLoop analyze cancelled reorder C (rest.drop (C - 1)) (batchStart + C) (poll + 1)
          ((reorder poll ((obj :: rest.take (C - 1)).mapIdx
              (fun batchIndex o => analyzeWithErrorHandling analyze o (batchStart + batchIndex)))).foldl
            storeResult arr)).2) := by
  simp [batchLoop, hp]

/-- Main invariant of the window loop: with no cancellation and any
per-window rearrangement of completion order, the loop succeeds and the
final array holds, at `batchStart + j`, the outcome of the `j`-th remaining
item (with its `usage` field deleted), leaving every other index
untouched. -/
lemma batchLoop_ok (analyze : Item → Except String ObjResult) (cancelled : ℕ → Bool)
    (reorder : ℕ → List (ℕ × OutData) → List (ℕ × OutData)) (C : ℕ) (hC : 1 ≤ C)
    (hcf : ∀ p, cancelled p = false)
    (hre : ∀ p l, (reorder p l).Perm l) :
    ∀ (n : ℕ) (remaining : List Item), remaining.length = n →
      ∀ (batchStart poll : ℕ) (arr : ℕ → Option OutData),
      ∃ calls arr2,
        batchLoop analyze cancelled reorder C remaining batchStart poll arr = (calls, .ok arr2) ∧
        (∀ i, i < batchStart → arr2 i = arr i) ∧
        (∀ i, batchStart + remaining.length ≤ i → arr2 i = arr i) ∧
        (∀ j (hj : j < remaining.length),
          arr2 (batchStart + j) =
            some (stripUsage
              (analyzeWithErrorHandling analyze remaining[j] (batchStart + j)).2)) := by
  intro n
  induction n using Nat.strong_induction_on with
  | _ n ih =>
    intro remaining hlen batchStart poll arr
    match remaining with
    | [] =>
      exact ⟨[], arr, by simp only [batchLoop], fun i _ => rfl, fun i _ => rfl,
        fun j hj => absurd hj (by simp)⟩
    | obj :: rest =>
      rw [batchLoop_cons_eq analyze cancelled reorder C obj rest batchStart poll arr (hcf poll)]
      set batch := obj :: rest.take (C - 1) with hbatch
      set results := batch.mapIdx
        (fun batchIndex o => analyzeWithErrorHandling analyze o (batchStart + batchIndex))
        with hresults
      set arrW := (reorder poll results).foldl storeResult arr with harrW
      -- window size
      have hB : batch.length = min C (rest.length + 1) := by
        simp only [hbatch, List.length_cons, List.length_take]
        omega
      have htake : batch = (obj :: rest).take C := by
        cases C with
        | zero => omega
        | succ c => simp [hbatch]
      -- keys of the (reordered) window results
      have hkeys : results.map Prod.fst =
          (List.range batch.length).map (fun bi => batchStart + bi) :=
        window_keys analyze batch batchStart
      have hperm : (reorder poll results).Perm results := hre poll results
      have hkeysperm : ((reorder poll results).map Prod.fst).Perm
          ((List.range batch.length).map (fun bi => batchStart + bi)) := by
        rw [← hkeys]; exact hperm.map Prod.fst
      have hnodup : ((reorder poll results).map Prod.fst).Nodup := by
        rw [hkeysperm.nodup_iff]
        exact List.Nodup.map (add_right_injective batchStart) (List.nodup_range _)
      -- outside the window, arrW agrees with arr
      have hA1 : ∀ i, i < batchStart ∨ batchStart + batch.length ≤ i → arrW i = arr i := by
        intro i hi
        apply foldl_store_of_not_mem
        intro hmem
        have : i ∈ (List.range batch.length).map (fun bi => batchStart + bi) :=
          hkeysperm.mem_iff.mp hmem
        simp only [List.mem_map, List.mem_range] at this
        obtain ⟨bi, hbi, hbieq⟩ := this
        omega
      -- inside the window, arrW holds the window's outcomes
      have hA2 : ∀ j (hj : j < batch.length),
          arrW (batchStart + j) =
            some (stripUsage
              (analyzeWithErrorHandling analyze (batch.get ⟨j, hj⟩) (batchStart + j)).2) := by
        intro j hj
        exact foldl_store_of_mem _ arr _ _ hnodup
          (hperm.mem_iff.mpr (window_mem analyze batch batchStart j hj))
      -- recursive call on the remaining windows
      have hlenrest : (rest.drop (C - 1)).length < n := by
        simp only [List.length_drop]
        simp only [List.length_cons] at hlen
        omega
      obtain ⟨calls2, arr3, heq2, hP1, hP2, hP3⟩ :=
        ih (rest.drop (C - 1)).length hlenrest (rest.drop (C - 1)) rfl
          (batchStart + C) (poll + 1) arrW
      rw [heq2]
      refine ⟨(List.range batch.length).map (fun bi => batchStart + bi) ++ calls2, arr3,
        rfl, ?_, ?_, ?_⟩
      · -- below the windows
        intro i hi
        rw [hP1 i (by omega), hA1 i (Or.inl hi)]
      · -- above all remaining items
        intro i hi
        simp only [List.length_cons] at hi
        have hdroplen : (rest.drop (C - 1)).length = rest.length - (C - 1) := by
          simp [List.length_drop]
        by_cases hcase : i < batchStart + C
        · rw [hP1 i hcase, hA1 i (Or.inr (by omega))]
        · rw [hP2 i (by omega), hA1 i (Or.inr (by omega))]
      · -- each remaining index carries its own outcome
        intro j hj
        simp only [List.length_cons] at hj
        by_cases hjB : j < batch.length
        · rw [hP1 (batchStart + j) (by omega), hA2 j hjB]
          have hgeteq : batch.get ⟨j, hjB⟩ = (obj :: rest)[j] := by
            simp only [List.get_eq_getElem, htake]
            rw [List.getElem_take]
          rw [hgeteq]
        · -- the index lies in a later window
          have hjC : C ≤ j := by omega
          have hdroplen : (rest.drop (C - 1)).length = rest.length - (C - 1) := by
            simp [List.length_drop]
          have hjrec : j - C < (rest.drop (C - 1)).length := by omega
          have hrec := hP3 (j - C) hjrec
          have hidx : batchStart + C + (j - C) = batchStart + j := by omega
          rw [hidx] at hrec
          rw [hrec]
          have hgetd : (rest.drop (C - 1)).get ⟨j - C, hjrec⟩ = (obj :: rest)[j] := by
            cases j with
            | zero => omega
            | succ j0 =>
              simp only [List.get_eq_getElem]
              rw [← List.getElem_drop']
              · have h2 : C - 1 + (j0 + 1 - C) = j0 := by omega
                simp only [h2, List.getElem_cons_succ]
              · omega
          rw [← hgetd]
          simp [List.get_eq_getElem]

/-- If the token is found cancelled at the `w`-th window-boundary poll (a
poll that happens, i.e. window `w` exists), the loop raises the Cancelled
fault. -/
lemma batchLoop_cancelled_err (analyze : Item → Except String ObjResult)
    (cancelled : ℕ → Bool) (reorder : ℕ → List (ℕ × OutData) → List (ℕ × OutData))
    (C : ℕ) (hC : 1 ≤ C) :
    ∀ (w : ℕ) (remaining : List Item) (batchStart poll : ℕ) (arr : ℕ → Option OutData),
      w * C < remaining.length → cancelled (poll + w) = true →
      (batchLoop analyze cancelled reorder C remaining batchStart poll arr).2 =
        .error "Analysis cancelled" := by
  intro w
  induction w with
  | zero =>
    intro remaining batchStart poll arr hlt hcan
    match remaining with
    | [] => simp at hlt
    | obj :: rest =>
      have hp : cancelled poll = true := by simpa using hcan
      rw [batchLoop_cancel_eq analyze cancelled reorder C obj rest batchStart poll arr hp]
  | succ w ih =>
    intro remaining batchStart poll arr hlt hcan
    match remaining with
    | [] => simp at hlt
    | obj :: rest =>
      by_cases hp : cancelled poll = true
      · rw [batchLoop_cancel_eq analyze cancelled reorder C obj rest batchStart poll arr hp]
      · have hpf : cancelled poll = false := by
          cases h : cancelled poll
          · rfl
          · exact absurd h hp
        rw [batchLoop_cons_eq analyze cancelled reorder C obj rest batchStart poll arr hpf]
        apply ih
        · simp only [List.length_cons] at hlt
          simp only [List.length_drop]
          have hmul : (w + 1) * C = w * C + C := by ring
          omega
        · have harith : poll + 1 + w = poll + (w + 1) := by omega
          rw [harith]
          exact hcan

/-- `filterMap` over `range N` of a function that is `some ∘ g` below `N`
is just the map of `g`. -/
lemma filterMap_range_eq_map {β : Type} (N : ℕ) (f : ℕ → Option β) (g : ℕ → β)
    (h : ∀ j, j < N → f j = some (g j)) :
    (List.range N).filterMap f = (List.range N).map g := by
  induction N with
  | zero => rfl
  | succ n ih =>
    rw [List.range_succ, List.filterMap_append, List.map_append,
      ih (fun j hj => h j (by omega))]
    simp [h n (by omega)]

/-- Success path of the modelled `analyzeSheet` batch portion: with no
cancellation and any completion order, the call returns `objectSummaries`
with one entry per item, the entry at position `j` being item `j`'s own
outcome. -/
lemma analyzeSheetRun_ok (analyze : Item → Except String ObjResult)
    (cancelled : ℕ → Bool) (reorder : ℕ → List (ℕ × OutData) → List (ℕ × OutData))
    (C : ℕ) (items : List Item) (hC : 1 ≤ C)
    (hcf : ∀ p, cancelled p = false) (hre : ∀ p l, (reorder p l).Perm l) :
    ∃ calls summaries,
      analyzeSheetRun analyze cancelled reorder C items = (calls, .ok summaries) ∧
      summaries.length = items.length ∧
      ∀ j (hj : j < items.length),
        summaries.get? j =
          some (stripUsage (analyzeWithErrorHandling analyze items[j] j).2) := by
  by_cases hemp : items.length = 0
  · refine ⟨[], [], ?_, by simp [hemp], fun j hj => absurd hj (by omega)⟩
    simp [analyzeSheetRun, hcf 0, hemp]
  · obtain ⟨calls, arr2, heq, hlow, hhigh, hmid⟩ :=
      batchLoop_ok analyze cancelled reorder C hC hcf hre items.length items rfl 0 2
        (fun _ => none)
    have hsome : ∀ j, j < items.length →
        arr2 j = some (stripUsage (analyzeWithErrorHandling analyze
          (items.getD j default) j).2) := by
      intro j hj
      have := hmid j hj
      rw [Nat.zero_add] at this
      rw [this, List.getD_eq_getElem items default hj]
    refine ⟨calls, (List.range items.length).map
        (fun j => stripUsage (analyzeWithErrorHandling analyze (items.getD j default) j).2),
      ?_, by simp, ?_⟩
    · simp only [analyzeSheetRun, hcf 0, hcf 1, hemp, if_false, Bool.false_eq_true, heq]
      rw [filterMap_range_eq_map items.length arr2 _ hsome]
    · intro j hj
      rw [List.get?_map, List.get?_range hj]
      simp [List.getD_eq_getElem, List.getElem?_eq_getElem hj]

/-- C1: for every item list and concurrency `C ≥ 1`, and for every order in
which the concurrent per-item calls of each window complete, the batch
returns exactly one `objectSummaries` entry per item, and the entry at
output position `j` is the outcome produced for input item `j` — output
order equals input order regardless of completion timing. -/
theorem analyzeSheet_order (analyze : Item → Except String ObjResult)
    (cancelled : ℕ → Bool) (reorder : ℕ → List (ℕ × OutData) → List (ℕ × OutData))
    (C : ℕ) (items : List Item) (hC : 1 ≤ C)
    (hcf : ∀ p, cancelled p = false) (hre : ∀ p l, (reorder p l).Perm l) :
    ∃ calls summaries,
      analyzeSheetRun analyze cancelled reorder C items = (calls, .ok summaries) ∧
      summaries.length = items.length ∧
      ∀ j (hj : j < items.length),
        summaries.get? j =
          some (stripUsage (analyzeWithErrorHandling analyze items[j] j).2) :=
  analyzeSheetRun_ok analyze cancelled reorder C items hC hcf hre

/-- C1 witness: two items at concurrency 3 with an always-succeeding worker;
the second output entry is the second item's own outcome. -/
theorem analyzeSheet_order_witness :
    ∃ calls summaries,
      analyzeSheetRun (fun _ => .ok ⟨"fine", none⟩) (fun _ => false) (fun _ l => l) 3
          [⟨"a", "A", "chart", true⟩, ⟨"b", "B", "table", false⟩] =
        (calls, .ok summaries) ∧
      summaries.length = 2 ∧
      summaries.get? 1 =
        some (stripUsage (analyzeWithErrorHandling (fun _ => .ok ⟨"fine", none⟩)
          ([(⟨"a", "A", "chart", true⟩ : Item), ⟨"b", "B", "table", false⟩].get ⟨1, by decide⟩)
          1).2) := by
  obtain ⟨calls, summaries, h1, h2, h3⟩ :=
    analyzeSheet_order (fun _ => .ok ⟨"fine", none⟩) (fun _ => false) (fun _ l => l) 3
      [⟨"a", "A", "chart", true⟩, ⟨"b", "B", "table", false⟩]
      (by norm_num) (fun p => rfl) (fun p l => List.Perm.refl l)
  exact ⟨calls, summaries, h1, h2, h3 1 (by decide)⟩

/-- C2: if the worker fails for item `k` (and would have succeeded under a
worker `analyze1` agreeing everywhere else), the batch still returns
normally — the exception is caught at the item boundary, never propagated —
with a failed outcome at index `k` carrying `Analysis failed: ` plus the
error's message, and every other position equal to what the all-else-equal
succeeding run produces. -/
theorem analyzeSheet_fault_isolation (analyze1 analyze2 : Item → Except String ObjResult)
    (cancelled : ℕ → Bool) (reorder : ℕ → List (ℕ × OutData) → List (ℕ × OutData))
    (C : ℕ) (items : List Item) (k : ℕ) (msg : String)
    (hC : 1 ≤ C) (hcf : ∀ p, cancelled p = false) (hre : ∀ p l, (reorder p l).Perm l)
    (hk : k < items.length)
    (hdistinct : ∀ j (hj : j < items.length), j ≠ k → items[j] ≠ items[k])
    (hagree : ∀ x, x ≠ items[k] → analyze2 x = analyze1 x)
    (hsucc : ∃ v, analyze1 items[k] = .ok v)
    (hfail : analyze2 items[k] = .error msg) :
    ∃ calls1 summaries1 calls2 summaries2,
      analyzeSheetRun analyze1 cancelled reorder C items = (calls1, .ok summaries1) ∧
      analyzeSheetRun analyze2 cancelled reorder C items = (calls2, .ok summaries2) ∧
      summaries2.get? k = some
        { id := (items[k]).id, title := (items[k]).title, type := (items[k]).type,
          summary := "Analysis failed: " ++ msg,
          showHoverMenu := (items[k]).showHoverMenu, error := true, usage := none } ∧
      (∀ j, j ≠ k → summaries2.get? j = summaries1.get? j) := by
  obtain ⟨calls1, summaries1, heq1, hlen1, hget1⟩ :=
    analyzeSheetRun_ok analyze1 cancelled reorder C items hC hcf hre
  obtain ⟨calls2, summaries2, heq2, hlen2, hget2⟩ :=
    analyzeSheetRun_ok analyze2 cancelled reorder C items hC hcf hre
  refine ⟨calls1, summaries1, calls2, summaries2, heq1, heq2, ?_, ?_⟩
  · rw [hget2 k hk]
    simp [analyzeWithErrorHandling, hfail, stripUsage]
  · intro j hj
    by_cases hjN : j < items.length
    · rw [hget1 j hjN, hget2 j hjN]
      have hne : items[j] ≠ items[k] := hdistinct j hjN hj
      have hax : analyze2 (items[j]) = analyze1 (items[j]) := hagree (items[j]) hne
      simp only [analyzeWithErrorHandling, hax]
    · have h1 : summaries1.get? j = none := by
        rw [List.get?_eq_none]
        omega
      have h2 : summaries2.get? j = none := by
        rw [List.get?_eq_none]
        omega
      rw [h1, h2]

/-- C2 witness: two distinct items, the worker failing only on the second;
the batch returns normally with the failed outcome at index 1, and index 0
matches the all-success run. -/
theorem analyzeSheet_fault_isolation_witness :
    ∃ calls1 summaries1 calls2 summaries2,
      analyzeSheetRun (fun _ => .ok ⟨"fine", none⟩) (fun _ => false) (fun _ l => l) 3
          [⟨"a", "A", "chart", true⟩, ⟨"b", "B", "table", false⟩] =
        (calls1, .ok summaries1) ∧
      analyzeSheetRun
          (fun x => if x = (⟨"b", "B", "table", false⟩ : Item)
                    then .error "boom" else .ok ⟨"fine", none⟩)
          (fun _ => false) (fun _ l => l) 3
          [⟨"a", "A", "chart", true⟩, ⟨"b", "B", "table", false⟩] =
        (calls2, .ok summaries2) ∧
      summaries2.get? 1 = some
        { id := "b", title := "B", type := "table",
          summary := "Analysis failed: " ++ "boom",
          showHoverMenu := false, error := true, usage := none } ∧
      (∀ j, j ≠ 1 → summaries2.get? j = summaries1.get? j) := by
  have h := analyzeSheet_fault_isolation
    (fun _ => .ok ⟨"fine", none⟩)
    (fun x => if x = (⟨"b", "B", "table", false⟩ : Item)
              then .error "boom" else .ok ⟨"fine", none⟩)
    (fun _ => false) (fun _ l => l) 3
    [⟨"a", "A", "chart", true⟩, ⟨"b", "B", "table", false⟩] 1 "boom"
    (by norm_num) (fun p => rfl) (fun p l => List.Perm.refl l)
    (by decide)
    (by intro j hj hne
        simp only [List.length_cons, List.length_nil] at hj
        interval_cases j
        · simp only [List.getElem_cons_zero, List.getElem_cons_succ]
          decide
        · omega)
    (by intro x hx
        have hxb : x ≠ (⟨"b", "B", "table", false⟩ : Item) := by simpa using hx
        simp [hxb])
    ⟨⟨"fine", none⟩, rfl⟩
    (by simp)
  simpa using h

/-- C3: if the token is cancelled before the batch starts, the call raises
the Cancelled fault and invokes the worker zero times (empty call trace);
and whenever the token is found cancelled at any window boundary that is
reached, the whole batch raises Cancelled — no partial outcomes are
returned. -/
theorem analyzeSheet_cancellation (analyze : Item → Except String ObjResult)
    (cancelled : ℕ → Bool) (reorder : ℕ → List (ℕ × OutData) → List (ℕ × OutData))
    (C : ℕ) (items : List Item) (hC : 1 ≤ C) :
    (cancelled 0 = true →
      analyzeSheetRun analyze cancelled reorder C items =
        ([], .error "Analysis cancelled")) ∧
    (∀ w, w * C < items.length → cancelled (2 + w) = true →
      (analyzeSheetRun analyze cancelled reorder C items).2 =
        .error "Analysis cancelled") := by
  constructor
  · intro h0
    simp [analyzeSheetRun, h0]
  · intro w hw hcw
    by_cases h0 : cancelled 0 = true
    · simp [analyzeSheetRun, h0]
    · have h0f : cancelled 0 = false := by
        cases h : cancelled 0
        · rfl
        · exact absurd h h0
      have hne : ¬ items.length = 0 := by
        have : 0 ≤ w * C := Nat.zero_le _
        omega
      by_cases h1 : cancelled 1 = true
      · simp [analyzeSheetRun, h0f, hne, h1]
      · have h1f : cancelled 1 = false := by
          cases h : cancelled 1
          · rfl
          · exact absurd h h1
        have herr := batchLoop_cancelled_err analyze cancelled reorder C hC w items 0 2
          (fun _ => none) hw hcw
        simp only [analyzeSheetRun, h0f, hne, h1f, if_false, Bool.false_eq_true]
        cases hbl : batchLoop analyze cancelled reorder C items 0 2 (fun _ => none) with
        | mk calls res =>
          rw [hbl] at herr
          cases res with
          | error e => simpa using herr
          | ok arr => simp at herr

/-- C3 witness: a token already cancelled before the batch gives the
Cancelled fault with an empty call trace, and a token found cancelled at
the first window boundary gives the Cancelled fault. -/
theorem analyzeSheet_cancellation_witness :
    analyzeSheetRun (fun _ => Except.ok ⟨"fine", none⟩) (fun _ => true) (fun _ l => l) 1
        [⟨"a", "A", "chart", true⟩] = ([], .error "Analysis cancelled") ∧
    (analyzeSheetRun (fun _ => Except.ok ⟨"fine", none⟩) (fun _ => true) (fun _ l => l) 1
        [⟨"a", "A", "chart", true⟩]).2 = .error "Analysis cancelled" := by
  have h := analyzeSheet_cancellation (fun _ => Except.ok ⟨"fine", none⟩)
    (fun _ => true) (fun _ l => l) 1 [⟨"a", "A", "chart", true⟩] (by norm_num)
  exact ⟨h.1 rfl, h.2 0 (by decide) rfl⟩

end Qlik2Review
